import Mathlib

/-!
Shallow embedding of the `commoner` CommonCrawl client (`src/lib.rs`) and
proofs about its specification.

The embedding keeps the source names (`Url.from_string`, `ContentType.to_string`,
`Fetcher.exec`, `CollectionsInfo.fetch`, `CDXItems.fetch`, `CDXQuerier.set_from`, ...)
and translates each Rust function body directly.  External collaborators
(the `url` crate's URL parser, `serde_json`, and the HTTP transport) are
modelled explicitly: URL parsing by an executable parser covering the URL
shapes this library exchanges, JSON (de)serialization by an executable JSON
value type plus the field layouts that `#[derive(Serialize, Deserialize)]`
produces, and the transport by a function from requests to responses that
is passed in as a parameter.
-/

namespace Commoner

/-- `Result<T> = std::result::Result<T, String>` from the source. -/
abbrev Result (α : Type) := Except String α

/-- `CDX_HOST` is the host for accessing cdx index data. -/
def CDX_HOST : String := "index.commoncrawl.org"

/-- `WARC_HOST` is the host for accessing WARC data. -/
def WARC_HOST : String := "commoncrawl.s3.amazonaws.com"

/-! ### Model of the external URL parser (the `url` crate used by `reqwest`) -/

/-- The parts of a parsed URL that `Url::from_string` inspects:
`host_str()` and `path()`. -/
structure ParsedUrl where
  host : Option String
  path : String
deriving DecidableEq, Repr

/-- Characters that terminate the authority (host) component of a URL. -/
def hostStop (c : Char) : Bool :=
  c = '/' || c = '?' || c = '#'

/-- Characters that terminate the path component of a URL. -/
def pathStop (c : Char) : Bool :=
  c = '?' || c = '#'

/-- Removes `pre` from the front of `l`, failing when `l` does not start
with `pre`. -/
def dropLead : List Char → List Char → Option (List Char)
  | [], l => some l
  | _ :: _, [] => none
  | a :: pre, b :: l => if a = b then dropLead pre l else none

/-- Parses the part of a URL after `"https://"` (or `"http://"`): a
non-empty host (ASCII-lowercased, with any `:port` suffix split off),
then a path defaulting to `"/"`.  Userinfo and percent-encoding are not
modelled; the URLs this library builds and consumes contain neither. -/
def parseAuthority (l : List Char) : Option ParsedUrl :=
  let hostRaw := l.takeWhile (fun c => !(hostStop c))
  let afterHost := l.dropWhile (fun c => !(hostStop c))
  if hostRaw.isEmpty then none
  else
    let host := (hostRaw.takeWhile (fun c => c ≠ ':')).map Char.toLower
    let path :=
      match afterHost with
      | '/' :: _ => afterHost.takeWhile (fun c => !(pathStop c))
      | _ => ['/']
    some { host := some (String.mk host), path := String.mk path }

/-- Model of `reqwest::Url::parse` (the WHATWG `url` crate) restricted to
the URL shapes exchanged here: `http(s)://host[:port]/path[?query][#frag]`
with a host, and `scheme:rest` forms (such as `mailto:`), which parse with
no host.  Anything else is a parse error. -/
def parseUrlChars (l : List Char) : Option ParsedUrl :=
  match dropLead "https://".data l with
  | some rest => parseAuthority rest
  | none =>
    match dropLead "http://".data l with
    | some rest => parseAuthority rest
    | none =>
      match l.takeWhile (fun c => c.isAlpha), l.dropWhile (fun c => c.isAlpha) with
      | _ :: _, ':' :: r =>
        some { host := none, path := String.mk (r.takeWhile (fun c => !(pathStop c))) }
      | _, _ => none

/-- `parseUrlChars` on a `String`. -/
def parseUrl (s : String) : Option ParsedUrl :=
  parseUrlChars s.data

/-! ### `Url` -/

/-- `Url` is the url type used by the library. -/
inductive Url where
  | CDX (path : String)
  | WARC (path : String)
deriving DecidableEq, Repr

/-- The `path` field common to both `Url` variants. -/
def Url.path : Url → String
  | .CDX p => p
  | .WARC p => p

/-- `to_string` returns the `Url` string: the `Display` impl renders
`https://<host>/<path>` for the matching variant. -/
def Url.to_string : Url → String
  | .CDX p => "https://" ++ CDX_HOST ++ "/" ++ p
  | .WARC p => "https://" ++ WARC_HOST ++ "/" ++ p

/-- `from_string` creates a `Url` from a string: parse it, then match
`host_str()` against the two known hosts; any other host (or no host)
is the `"invalid domain"` error. -/
def Url.from_string (s : String) : Result Url :=
  match parseUrl s with
  | none => .error "url parse error"
  | some u =>
    match u.host with
    | some h =>
      if h = CDX_HOST then .ok (Url.CDX u.path)
      else if h = WARC_HOST then .ok (Url.WARC u.path)
      else .error "invalid domain"
    | none => .error "invalid domain"

/-! ### `Charset` and `ContentType` -/

/-- `Charset` is the set of charsets used by `ContentType`. -/
inductive Charset where
  | UTF8
  | UTF16
deriving DecidableEq, Repr

/-- `to_string` returns the `Charset` string. -/
def Charset.to_string : Charset → String
  | .UTF8 => "utf-8"
  | .UTF16 => "utf-16"

/-- `from_string` creates a `Charset` from a string. -/
def Charset.from_string (s : String) : Result Charset :=
  if s = "utf-8" then .ok .UTF8
  else if s = "utf-16" then .ok .UTF16
  else .error "invalid charset"

/-- `ContentType` is the set of content-types used by `Fetcher`. -/
inductive ContentType where
  | JSON
  | TEXT (charset : Charset)
deriving DecidableEq, Repr

/-- `to_string` returns the `ContentType` string (the `Display` impl). -/
def ContentType.to_string : ContentType → String
  | .JSON => "application/json"
  | .TEXT c => "text/plain; charset=" ++ c.to_string

/-- `from_string` creates a `ContentType` from a string. -/
def ContentType.from_string (s : String) : Result ContentType :=
  if s = "application/json" then .ok .JSON
  else if s = "text/plain; charset=utf-8" then .ok (.TEXT .UTF8)
  else if s = "text/plain; charset=utf-16" then .ok (.TEXT .UTF16)
  else .error "invalid content-type"

/-! ### HTTP model and `Fetcher` -/

/-- The one kind of request `Fetcher::exec` builds: a GET with a URL and
an `Accept` header. -/
structure HttpRequest where
  url : String
  accept : String
deriving DecidableEq, Repr

/-- The parts of an HTTP response `Fetcher::exec` inspects: the status
code and the body.  The body is modelled by its byte string. -/
structure HttpResponse where
  status : Nat
  body : String
deriving DecidableEq, Repr

/-- A transport: the network, modelled as a function from requests to
responses (`Client::new().get(..).send()`). -/
def Transport : Type := HttpRequest → HttpResponse

/-- Model of `HeaderValue::from_str`: accepts visible ASCII plus space and
tab, rejects control characters and DEL. -/
def headerValueOk (s : String) : Bool :=
  s.data.all (fun c => c = '\t' || (32 ≤ c.toNat && c.toNat ≤ 255 && c.toNat ≠ 127))

/-- `Fetcher` is used to fetch a remote http(s) resource. -/
structure Fetcher where
  url : Url
  content_type : ContentType
deriving DecidableEq, Repr

/-- `json_fetcher` creates a new json content-type `Fetcher`
(`ContentType::default()` is `JSON`). -/
def Fetcher.json_fetcher (url : Url) : Fetcher :=
  { url := url, content_type := .JSON }

/-- `text_fetcher` creates a new text content-type `Fetcher`. -/
def Fetcher.text_fetcher (url : Url) (charset : Charset) : Fetcher :=
  { url := url, content_type := .TEXT charset }

/-- The request `Fetcher::exec` sends: GET on the rendered URL, with the
`Accept` header set to the rendered content-type. -/
def Fetcher.request (f : Fetcher) : HttpRequest :=
  { url := f.url.to_string, accept := f.content_type.to_string }

/-- `exec` execs the `Fetcher`: build the `Accept` header value, send the
GET request, require status exactly 200, and return the body.  In the
source a non-200 status yields `Err(format!("status code: {}", status))`;
the model renders the numeric code (the source's `Display` also appends
the canonical reason phrase). -/
def Fetcher.exec (f : Fetcher) (t : Transport) : Result String :=
  if headerValueOk f.content_type.to_string then
    if (t f.request).status ≠ 200 then
      .error ("status code: " ++ toString (t f.request).status)
    else .ok (t f.request).body
  else .error "invalid header value"

/-! ### JSON model (`serde_json`)

JSON documents are modelled by the `Json` value type; `serde_json::to_*`
for a derived struct builds an object whose fields appear in declaration
order, and `serde_json::from_*` parses the text and then looks every
declared field up by name. -/

/-- A JSON value. -/
inductive Json where
  | null
  | bool (b : Bool)
  | num (n : Nat)
  | str (s : String)
  | arr (items : List Json)
  | obj (fields : List (String × Json))

/-- The field names of a JSON object (in order), `[]` on other values. -/
def Json.fieldNames : Json → List String
  | .obj fs => fs.map Prod.fst
  | _ => []

/-- Whitespace skipping for the JSON text parser. -/
def skipWs (l : List Char) : List Char :=
  l.dropWhile (fun c => c = ' ' || c = '\n' || c = '\t' || c = '\r')

/-- Parses a JSON string literal body (after the opening quote), up to the
closing quote.  Escape sequences are not modelled; the concrete documents
evaluated here contain none. -/
def parseStringLit (l : List Char) : Option (String × List Char) :=
  let body := l.takeWhile (fun c => c ≠ '"' && c ≠ '\\')
  match l.dropWhile (fun c => c ≠ '"' && c ≠ '\\') with
  | '"' :: rest => some (String.mk body, rest)
  | _ => none

/-- Parses a non-empty run of decimal digits. -/
def parseDigits (l : List Char) : Option (Nat × List Char) :=
  match l.takeWhile Char.isDigit with
  | [] => none
  | ds => some ((String.mk ds).toNat!, l.dropWhile Char.isDigit)

mutual

/-- Fuel-bounded recursive-descent parser for JSON values (restricted to
the grammar the service exchanges: strings without escapes and unsigned
integers). -/
def parseVal : Nat → List Char → Option (Json × List Char)
  | 0, _ => none
  | fuel + 1, l =>
    match skipWs l with
    | '"' :: r => (parseStringLit r).map (fun p => (Json.str p.1, p.2))
    | '[' :: r =>
      match skipWs r with
      | ']' :: r2 => some (Json.arr [], r2)
      | r2 => (parseItems fuel r2).map (fun p => (Json.arr p.1, p.2))
    | '{' :: r =>
      match skipWs r with
      | '}' :: r2 => some (Json.obj [], r2)
      | r2 => (parseFields fuel r2).map (fun p => (Json.obj p.1, p.2))
    | 't' :: 'r' :: 'u' :: 'e' :: r => some (Json.bool true, r)
    | 'f' :: 'a' :: 'l' :: 's' :: 'e' :: r => some (Json.bool false, r)
    | 'n' :: 'u' :: 'l' :: 'l' :: r => some (Json.null, r)
    | r =>
      match parseDigits r with
      | some (n, rest) => some (Json.num n, rest)
      | none => none

/-- Parses the comma-separated items of a non-empty JSON array, up to and
including the closing bracket. -/
def parseItems : Nat → List Char → Option (List Json × List Char)
  | 0, _ => none
  | fuel + 1, l => do
    let (v, rest) ← parseVal fuel l
    match skipWs rest with
    | ',' :: r => (parseItems fuel r).map (fun p => (v :: p.1, p.2))
    | ']' :: r => some ([v], r)
    | _ => none

/-- Parses the comma-separated fields of a non-empty JSON object, up to
and including the closing brace. -/
def parseFields : Nat → List Char → Option (List (String × Json) × List Char)
  | 0, _ => none
  | fuel + 1, l =>
    match skipWs l with
    | '"' :: r => do
      let (k, rest) ← parseStringLit r
      match skipWs rest with
      | ':' :: r2 => do
        let (v, rest2) ← parseVal fuel r2
        match skipWs rest2 with
        | ',' :: r3 => (parseFields fuel r3).map (fun p => ((k, v) :: p.1, p.2))
        | '}' :: r3 => some ([(k, v)], r3)
        | _ => none
      | _ => none
    | _ => none

end

/-- Parses a complete JSON document (no trailing garbage allowed). -/
def parseJson (s : String) : Option Json :=
  match parseVal (s.data.length + 1) s.data with
  | some (v, rest) => if skipWs rest = [] then some v else none
  | none => none

/-- Looks a string field up in a JSON object's field list
(`serde`'s by-name field access). -/
def getStr (fields : List (String × Json)) (nm : String) : Result String :=
  match fields.lookup nm with
  | some (.str s) => .ok s
  | _ => .error ("missing field " ++ nm)

/-- Looks an unsigned-integer field up in a JSON object's field list. -/
def getNat (fields : List (String × Json)) (nm : String) : Result Nat :=
  match fields.lookup nm with
  | some (.num n) => .ok n
  | _ => .error ("missing field " ++ nm)

/-- Decodes every element of a JSON array in order, failing on the first
element that fails (`serde`'s sequence decoding). -/
def decodeList {α : Type} (g : Json → Result α) : List Json → Result (List α)
  | [] => .ok []
  | x :: xs => do
    let a ← g x
    let as ← decodeList g xs
    pure (a :: as)

/-! ### Typed records -/

/-- `CollectionInfo` is a single collection info in the CommonCrawl
json file at the catalog path. -/
structure CollectionInfo where
  id : String
  name : String
  timegate : String
  cdx_api : String
deriving DecidableEq, Repr

/-- The JSON object `#[derive(Serialize)]` produces for `CollectionInfo`:
its fields, by their Rust names, in declaration order. -/
def CollectionInfo.toJson (c : CollectionInfo) : Json :=
  .obj [("id", .str c.id), ("name", .str c.name),
        ("timegate", .str c.timegate), ("cdx_api", .str c.cdx_api)]

/-- The decoder `#[derive(Deserialize)]` produces for `CollectionInfo`:
an object with every declared field present, looked up by name. -/
def CollectionInfo.fromJson : Json → Result CollectionInfo
  | .obj fs => do
    let i ← getStr fs "id"
    let n ← getStr fs "name"
    let tg ← getStr fs "timegate"
    let ca ← getStr fs "cdx_api"
    pure ⟨i, n, tg, ca⟩
  | _ => .error "expected object"

/-- `CollectionsInfo` is a collection of `CollectionInfo`s
(a newtype over a vector, serialized as a bare JSON array). -/
structure CollectionsInfo where
  items : List CollectionInfo
deriving DecidableEq, Repr

/-- Serialization of the `CollectionsInfo` newtype: the bare array. -/
def CollectionsInfo.toJson (c : CollectionsInfo) : Json :=
  .arr (c.items.map CollectionInfo.toJson)

/-- Deserialization of the `CollectionsInfo` newtype. -/
def CollectionsInfo.fromJson : Json → Result CollectionsInfo
  | .arr xs => (decodeList CollectionInfo.fromJson xs).map CollectionsInfo.mk
  | _ => .error "expected array"

/-- `from_json_bytes` for `CollectionsInfo` (`serde_json::from_slice`):
parse the text, then decode. -/
def CollectionsInfo.from_json_bytes (s : String) : Result CollectionsInfo :=
  match parseJson s with
  | some v => CollectionsInfo.fromJson v
  | none => .error "decode error"

/-- `CDXItem` is a single item returned by a CDX query.  The `u64` fields
are modelled by `Nat`. -/
structure CDXItem where
  urlkey : String
  timestamp : Nat
  mime : String
  length : Nat
  status : Nat
  filename : String
  languages : String
  charset : String
  url : String
  mime_detected : String
  offset : Nat
  digest : String
deriving DecidableEq, Repr

/-- The JSON object `#[derive(Serialize)]` produces for `CDXItem`. -/
def CDXItem.toJson (x : CDXItem) : Json :=
  .obj [("urlkey", .str x.urlkey), ("timestamp", .num x.timestamp),
        ("mime", .str x.mime), ("length", .num x.length),
        ("status", .num x.status), ("filename", .str x.filename),
        ("languages", .str x.languages), ("charset", .str x.charset),
        ("url", .str x.url), ("mime_detected", .str x.mime_detected),
        ("offset", .num x.offset), ("digest", .str x.digest)]

/-- The decoder `#[derive(Deserialize)]` produces for `CDXItem`. -/
def CDXItem.fromJson : Json → Result CDXItem
  | .obj fs => do
    let uk ← getStr fs "urlkey"
    let ts ← getNat fs "timestamp"
    let mi ← getStr fs "mime"
    let le ← getNat fs "length"
    let st ← getNat fs "status"
    let fi ← getStr fs "filename"
    let la ← getStr fs "languages"
    let ch ← getStr fs "charset"
    let ur ← getStr fs "url"
    let md ← getStr fs "mime_detected"
    let of ← getNat fs "offset"
    let di ← getStr fs "digest"
    pure ⟨uk, ts, mi, le, st, fi, la, ch, ur, md, of, di⟩
  | _ => .error "expected object"

/-- `CDXItems` is the collection of items returned by a CDX query
(a newtype over a vector, serialized as a bare JSON array). -/
structure CDXItems where
  items : List CDXItem
deriving DecidableEq, Repr

/-- Serialization of the `CDXItems` newtype: the bare array. -/
def CDXItems.toJson (c : CDXItems) : Json :=
  .arr (c.items.map CDXItem.toJson)

/-- Deserialization of the `CDXItems` newtype. -/
def CDXItems.fromJson : Json → Result CDXItems
  | .arr xs => (decodeList CDXItem.fromJson xs).map CDXItems.mk
  | _ => .error "expected array"

/-- `from_json_bytes` for `CDXItems` (`serde_json::from_slice`). -/
def CDXItems.from_json_bytes (s : String) : Result CDXItems :=
  match parseJson s with
  | some v => CDXItems.fromJson v
  | none => .error "decode error"

/-! ### Repositories -/

/-- `PATH` is the path of the remote `CollectionsInfo`. -/
def CollectionsInfo.PATH : String := "collinfo.json"

/-- `url` returns the `CollectionsInfo` url. -/
def CollectionsInfo.url : Url :=
  Url.CDX CollectionsInfo.PATH

/-- `fetch` fetches `CollectionsInfo` from remote: build a json fetcher
for the catalog url, exec it, and decode the bytes. -/
def CollectionsInfo.fetch (t : Transport) : Result CollectionsInfo := do
  let contents ← (Fetcher.json_fetcher CollectionsInfo.url).exec t
  CollectionsInfo.from_json_bytes contents

/-- The path normalization inlined in `CDXItems::fetch`: when the first
character is `'/'` it is removed (`String::remove(0)`), otherwise the
path is kept as is. -/
def stripSlash (path : String) : String :=
  if path.data.head? = some '/' then String.mk path.data.tail else path

/-- `fetch` fetches `CDXItems` from remote: normalize the leading slash,
build the WARC url, exec a json fetcher on it, and decode the bytes. -/
def CDXItems.fetch (path : String) (t : Transport) : Result CDXItems := do
  let url := Url.WARC (stripSlash path)
  let contents ← (Fetcher.json_fetcher url).exec t
  CDXItems.from_json_bytes contents

/-! ### `CDXQuerier` -/

/-- The possible outcomes of calling a Rust function that may abort:
`unreachable!()` aborts the process instead of returning. -/
inductive Outcome (α : Type) where
  | aborts
  | returns (val : α)
deriving DecidableEq, Repr

/-- `CDXQuerier` is used to query the CommonCrawl Index CDX API. -/
structure CDXQuerier where
  path : String
  «from» : Nat
  «to» : Nat
  limit : Nat
  sort : Int
  filter : String
  field : Option String
  page : Nat
  page_size : Nat
  show_num_pages : Bool
  show_paged_index : Bool
deriving DecidableEq, Repr

/-- `set_path` sets the path of the collection index — the body is
`unreachable!()`. -/
def CDXQuerier.set_path (_path : String) : Outcome (Result CDXQuerier) :=
  .aborts

/-- `set_from` sets the from timestamp in the date/time range of the
query — the body is `unreachable!()`. -/
def CDXQuerier.set_from (_from : Nat) : Outcome (Result CDXQuerier) :=
  .aborts

/-- `set_to` sets the to timestamp in the date/time range of the query —
the body is `unreachable!()`. -/
def CDXQuerier.set_to (_to : Nat) : Outcome (Result CDXQuerier) :=
  .aborts

/-- `set_limit` sets the limit to the number of returned items — the body
is `unreachable!()`. -/
def CDXQuerier.set_limit (_limit : Nat) : Outcome (Result CDXQuerier) :=
  .aborts

/-- `set_sort` sets the sorting method in the query — the body is
`unreachable!()`. -/
def CDXQuerier.set_sort (_sort : Int) : Outcome (Result CDXQuerier) :=
  .aborts

/-- `set_filter` sets the filtering method in the query — the body is
`unreachable!()`. -/
def CDXQuerier.set_filter (_filter : String) : Outcome (Result CDXQuerier) :=
  .aborts

/-- `set_field` sets the field to be returned — the body is
`unreachable!()`. -/
def CDXQuerier.set_field (_field : String) : Outcome (Result CDXQuerier) :=
  .aborts

/-- `set_page` sets the page to be returned by the query — the body is
`unreachable!()`. -/
def CDXQuerier.set_page (_page : Nat) : Outcome (Result CDXQuerier) :=
  .aborts

/-- `set_page_size` sets the maximum size per page — the body is
`unreachable!()`. -/
def CDXQuerier.set_page_size (_page_size : Nat) : Outcome (Result CDXQuerier) :=
  .aborts

/-- `exec` execs the `CDXQuerier` — the body is `unreachable!()`. -/
def CDXQuerier.exec (_q : CDXQuerier) : Outcome (Result CDXItems) :=
  .aborts

/-! ### The spec's field-name lists (for comparison with the derived
JSON layout) -/

/-- Modelled from the spec: the field names the spec's data model gives
for a collection descriptor. -/
def specCollectionDescriptorFields : List String :=
  ["id", "name", "timegate_url", "cdx_api_url"]

/-- Modelled from the spec: the field names the spec's data model gives
for a CDX record. -/
def specCDXRecordFields : List String :=
  ["urlkey", "timestamp", "mime", "length", "status", "filename",
   "languages", "charset", "url", "mime_detected", "offset", "digest"]

/-- The `Url` variant `Url::from_string` selects for a parsed URL whose
host is one of the two known hosts. -/
def hostTagged (u : ParsedUrl) : Url :=
  if u.host = some WARC_HOST then Url.WARC u.path else Url.CDX u.path

/-- A transport whose every response is status 404 with an empty body. -/
def transport404 : Transport :=
  fun _ => { status := 404, body := "" }

/-- A transport whose every response is status 200 with the body `"x"`,
which is not valid JSON. -/
def transport200x : Transport :=
  fun _ => { status := 200, body := "x" }

/-! ## Lemmas -/

theorem takeWhile_append_all {α : Type} (f : α → Bool) (l1 l2 : List α)
    (h : ∀ c ∈ l1, f c = true) :
    (l1 ++ l2).takeWhile f = l1 ++ l2.takeWhile f := by
  induction l1 with
  | nil => rfl
  | cons a l ih =>
    simp only [List.cons_append, List.takeWhile_cons_of_pos (h a (by simp))]
    rw [ih (fun c hc => h c (by simp [hc]))]

theorem dropWhile_append_all {α : Type} (f : α → Bool) (l1 l2 : List α)
    (h : ∀ c ∈ l1, f c = true) :
    (l1 ++ l2).dropWhile f = l2.dropWhile f := by
  induction l1 with
  | nil => rfl
  | cons a l ih =>
    simp only [List.cons_append, List.dropWhile_cons_of_pos (h a (by simp))]
    exact ih (fun c hc => h c (by simp [hc]))

theorem dropLead_append (pre l : List Char) : dropLead pre (pre ++ l) = some l := by
  induction pre with
  | nil => rfl
  | cons a t ih => simp [dropLead, ih]

theorem parseAuthority_path_ok {l : List Char} {u : ParsedUrl}
    (h : parseAuthority l = some u) : ∀ c ∈ u.path.data, pathStop c = false := by
  simp only [parseAuthority] at h
  split at h
  · exact absurd h (by simp)
  · rw [Option.some_inj] at h
    subst h
    intro c hc
    simp only at hc
    split at hc
    · have := List.mem_takeWhile_imp hc
      simpa using this
    · simp only [List.mem_singleton] at hc
      subst hc
      rfl

theorem parseUrlChars_path_ok {l : List Char} {u : ParsedUrl}
    (h : parseUrlChars l = some u) : ∀ c ∈ u.path.data, pathStop c = false := by
  unfold parseUrlChars at h
  split at h
  · exact parseAuthority_path_ok h
  · split at h
    · exact parseAuthority_path_ok h
    · split at h
      · rw [Option.some_inj] at h
        subst h
        intro c hc
        simp only at hc
        have := List.mem_takeWhile_imp hc
        simpa using this
      · exact absurd h (by simp)

theorem parseAuthority_render (H : String) (p : List Char) (hne : H.data ≠ [])
    (hH : ∀ c ∈ H.data, hostStop c = false)
    (hCol : (H.data.takeWhile (fun c => c ≠ ':')).map Char.toLower = H.data)
    (hp : ∀ c ∈ p, pathStop c = false) :
    parseAuthority (H.data ++ '/' :: p) = some ⟨some H, String.mk ('/' :: p)⟩ := by
  have hf : ∀ c ∈ H.data, (!(hostStop c)) = true := fun c hc => by simp [hH c hc]
  have htw : (H.data ++ '/' :: p).takeWhile (fun c => !(hostStop c)) = H.data := by
    rw [takeWhile_append_all _ _ _ hf, List.takeWhile_cons_of_neg (by decide), List.append_nil]
  have hdw : (H.data ++ '/' :: p).dropWhile (fun c => !(hostStop c)) = '/' :: p := by
    rw [dropWhile_append_all _ _ _ hf, List.dropWhile_cons_of_neg (by decide)]
  have hpe : (('/' :: p).takeWhile fun c => !(pathStop c)) = '/' :: p := by
    rw [List.takeWhile_cons_of_pos (by decide),
        List.takeWhile_eq_self_iff.mpr (fun c hc => by simp [hp c hc])]
  unfold parseAuthority
  simp only [htw, hdw, hpe, hCol]
  rw [if_neg (by simp [List.isEmpty_iff, hne])]

theorem parseUrl_render (H p : String) (hne : H.data ≠ [])
    (hH : ∀ c ∈ H.data, hostStop c = false)
    (hCol : (H.data.takeWhile (fun c => c ≠ ':')).map Char.toLower = H.data)
    (hp : ∀ c ∈ p.data, pathStop c = false) :
    parseUrl ("https://" ++ H ++ "/" ++ p) = some ⟨some H, "/" ++ p⟩ := by
  have hdata : ("https://" ++ H ++ "/" ++ p).data
      = "https://".data ++ (H.data ++ '/' :: p.data) := by
    simp [String.data_append, List.append_assoc]
  have hstep : parseUrl ("https://" ++ H ++ "/" ++ p)
      = parseAuthority (H.data ++ '/' :: p.data) := by
    unfold parseUrl
    rw [hdata]
    unfold parseUrlChars
    rw [dropLead_append]
  rw [hstep, parseAuthority_render H p.data hne hH hCol hp]
  rfl

theorem decodeList_map {α : Type} (f : α → Json) (g : Json → Result α)
    (h : ∀ a, g (f a) = .ok a) (l : List α) : decodeList g (l.map f) = .ok l := by
  induction l with
  | nil => rfl
  | cons a t ih =>
    simp only [List.map_cons, decodeList, h, ih]
    rfl

theorem contentType_header_ok (ct : ContentType) :
    headerValueOk ct.to_string = true := by
  rcases ct with _ | ch
  · decide
  · rcases ch <;> decide

theorem from_string_of_parse_cdx {s : String} {u : ParsedUrl}
    (hparse : parseUrl s = some u) (hh : u.host = some CDX_HOST) :
    Url.from_string s = .ok (Url.CDX u.path) := by
  obtain ⟨uh, up⟩ := u
  simp only at hh
  subst hh
  unfold Url.from_string
  rw [hparse]
  rfl

theorem from_string_of_parse_warc {s : String} {u : ParsedUrl}
    (hparse : parseUrl s = some u) (hh : u.host = some WARC_HOST) :
    Url.from_string s = .ok (Url.WARC u.path) := by
  obtain ⟨uh, up⟩ := u
  simp only at hh
  subst hh
  unfold Url.from_string
  rw [hparse]
  rfl

/-! ## Claims -/

/-- C1 (counterexample): for `s = "https://index.commoncrawl.org/collinfo.json"`,
which parses with a known host and path `"/collinfo.json"`, the string
`to_string(from_string(s))` parses with path `"//collinfo.json"`, so
`to_string(from_string(s))` does not reproduce the path of `s`. -/
theorem c1_counterexample :
    parseUrl "https://index.commoncrawl.org/collinfo.json"
        = some ⟨some CDX_HOST, "/collinfo.json"⟩
      ∧ Url.from_string "https://index.commoncrawl.org/collinfo.json"
        = .ok (Url.CDX "/collinfo.json")
      ∧ Url.to_string (Url.CDX "/collinfo.json")
        = "https://index.commoncrawl.org//collinfo.json"
      ∧ parseUrl "https://index.commoncrawl.org//collinfo.json"
        = some ⟨some CDX_HOST, "//collinfo.json"⟩
      ∧ ("//collinfo.json" : String) ≠ "/collinfo.json" :=
  ⟨rfl, rfl, rfl, rfl, by decide⟩

/-- C1 (amended): for every string `s` that parses as a URL whose host is
one of the two known hosts, `from_string(s)` succeeds, and
`to_string(from_string(s))` reproduces the same host as `s`, while its
path is the path of `s` with one extra leading `'/'` prepended (the
`Display` impl inserts a `'/'` in front of the stored path, which already
begins with one). -/
theorem c1_to_string_from_string_host_preserved_path_gains_slash :
    ∀ (s : String) (u : ParsedUrl),
      parseUrl s = some u →
      (u.host = some CDX_HOST ∨ u.host = some WARC_HOST) →
      Url.from_string s = .ok (hostTagged u) ∧
      parseUrl (hostTagged u).to_string = some ⟨u.host, "/" ++ u.path⟩ := by
  intro s u hparse hknown
  have hp : ∀ c ∈ u.path.data, pathStop c = false := parseUrlChars_path_ok hparse
  rcases hknown with hh | hh
  · have htag : hostTagged u = Url.CDX u.path := by
      unfold hostTagged
      rw [hh, if_neg (by decide)]
    refine ⟨by rw [htag]; exact from_string_of_parse_cdx hparse hh, ?_⟩
    rw [htag]
    show parseUrl ("https://" ++ CDX_HOST ++ "/" ++ u.path) = _
    rw [parseUrl_render CDX_HOST u.path (by decide) (by decide) (by decide) hp, hh]
  · have htag : hostTagged u = Url.WARC u.path := by
      unfold hostTagged
      rw [hh, if_pos rfl]
    refine ⟨by rw [htag]; exact from_string_of_parse_warc hparse hh, ?_⟩
    rw [htag]
    show parseUrl ("https://" ++ WARC_HOST ++ "/" ++ u.path) = _
    rw [parseUrl_render WARC_HOST u.path (by decide) (by decide) (by decide) hp, hh]

/-- C1 (witness): the amended claim at
`s = "https://index.commoncrawl.org/collinfo.json"`. -/
theorem c1_witness :
    Url.from_string "https://index.commoncrawl.org/collinfo.json"
        = .ok (hostTagged ⟨some CDX_HOST, "/collinfo.json"⟩)
      ∧ parseUrl (hostTagged ⟨some CDX_HOST, "/collinfo.json"⟩).to_string
        = some ⟨some CDX_HOST, "/" ++ "/collinfo.json"⟩ :=
  c1_to_string_from_string_host_preserved_path_gains_slash
    "https://index.commoncrawl.org/collinfo.json"
    ⟨some CDX_HOST, "/collinfo.json"⟩ rfl (Or.inl rfl)

/-- C2 (counterexample): the locator `CollectionsInfo::url()` produced by
the collections repository has path `"collinfo.json"`, but
`from_string(to_string(l))` yields path `"/collinfo.json"`, so the
round-trip does not return `l`. -/
theorem c2_counterexample :
    CollectionsInfo.url = Url.CDX "collinfo.json"
      ∧ Url.from_string (Url.to_string CollectionsInfo.url)
        = .ok (Url.CDX "/collinfo.json")
      ∧ Url.CDX "/collinfo.json" ≠ CollectionsInfo.url :=
  ⟨rfl, rfl, by decide⟩

/-- C2 (amended): for every locator `l` whose path contains no `'?'` or
`'#'`, `from_string(to_string(l))` succeeds with the same variant (host
preserved) but with path `"/" ++ l.path`: the rendered URL inserts a
`'/'` between the host and the stored path, and re-parsing keeps it. -/
theorem c2_from_string_to_string_prepends_slash :
    ∀ p : String, (∀ c ∈ p.data, pathStop c = false) →
      Url.from_string (Url.to_string (Url.CDX p)) = .ok (Url.CDX ("/" ++ p)) ∧
      Url.from_string (Url.to_string (Url.WARC p)) = .ok (Url.WARC ("/" ++ p)) := by
  intro p hp
  constructor
  · have h1 : parseUrl (Url.to_string (Url.CDX p)) = some ⟨some CDX_HOST, "/" ++ p⟩ := by
      show parseUrl ("https://" ++ CDX_HOST ++ "/" ++ p) = _
      exact parseUrl_render CDX_HOST p (by decide) (by decide) (by decide) hp
    exact from_string_of_parse_cdx h1 rfl
  · have h1 : parseUrl (Url.to_string (Url.WARC p)) = some ⟨some WARC_HOST, "/" ++ p⟩ := by
      show parseUrl ("https://" ++ WARC_HOST ++ "/" ++ p) = _
      exact parseUrl_render WARC_HOST p (by decide) (by decide) (by decide) hp
    exact from_string_of_parse_warc h1 rfl

/-- C2 (witness): the amended claim at the catalog path
`"collinfo.json"`. -/
theorem c2_witness :
    Url.from_string (Url.to_string (Url.CDX "collinfo.json"))
        = .ok (Url.CDX ("/" ++ "collinfo.json"))
      ∧ Url.from_string (Url.to_string (Url.WARC "collinfo.json"))
        = .ok (Url.WARC ("/" ++ "collinfo.json")) :=
  c2_from_string_to_string_prepends_slash "collinfo.json" (by decide)

/-- C3 (confirmed): for every string that parses as a URL whose host
matches neither known host — including URLs with no host at all —
`Url::from_string` fails with the `"invalid domain"` error. -/
theorem c3_unknown_host_invalid_domain :
    ∀ (s : String) (u : ParsedUrl),
      parseUrl s = some u →
      u.host ≠ some CDX_HOST →
      u.host ≠ some WARC_HOST →
      Url.from_string s = .error "invalid domain" := by
  intro s u hparse h1 h2
  obtain ⟨uh, up⟩ := u
  simp only at h1 h2
  unfold Url.from_string
  rw [hparse]
  rcases uh with _ | h
  · rfl
  · show (if h = CDX_HOST then Except.ok (Url.CDX up)
        else if h = WARC_HOST then Except.ok (Url.WARC up)
        else Except.error "invalid domain") = Except.error "invalid domain"
    rw [if_neg (fun he => h1 (by rw [he])), if_neg (fun he => h2 (by rw [he]))]

/-- C3 (witness): the claim at `"https://example.com/x"` (unknown host)
and at `"mailto:a@b"` (no host). -/
theorem c3_witness :
    Url.from_string "https://example.com/x" = .error "invalid domain"
      ∧ Url.from_string "mailto:a@b" = .error "invalid domain" :=
  ⟨c3_unknown_host_invalid_domain "https://example.com/x"
      ⟨some "example.com", "/x"⟩ rfl (by decide) (by decide),
   c3_unknown_host_invalid_domain "mailto:a@b"
      ⟨none, "a@b"⟩ rfl (by decide) (by decide)⟩

/-- C4 (confirmed): `ContentType::from_string` succeeds exactly on the
three rendered values, returning `JSON`, `TEXT(UTF8)`, `TEXT(UTF16)`
respectively — so `from_string(to_string(c)) = c` for every value `c` —
and fails with the `"invalid content-type"` error on any other string. -/
theorem c4_content_type_strict_inverse :
    (∀ c : ContentType, ContentType.from_string c.to_string = .ok c)
      ∧ ContentType.from_string "application/json" = .ok .JSON
      ∧ ContentType.from_string "text/plain; charset=utf-8" = .ok (.TEXT .UTF8)
      ∧ ContentType.from_string "text/plain; charset=utf-16" = .ok (.TEXT .UTF16)
      ∧ (∀ s : String,
          s ≠ "application/json" →
          s ≠ "text/plain; charset=utf-8" →
          s ≠ "text/plain; charset=utf-16" →
          ContentType.from_string s = .error "invalid content-type") := by
  refine ⟨?_, rfl, rfl, rfl, ?_⟩
  · intro c
    rcases c with _ | ch
    · rfl
    · rcases ch <;> rfl
  · intro s h1 h2 h3
    unfold ContentType.from_string
    rw [if_neg h1, if_neg h2, if_neg h3]

/-- C4 (witness): the claim at `c = TEXT(UTF16)` and at the unknown
string `"text/html"`. -/
theorem c4_witness :
    ContentType.from_string (ContentType.to_string (.TEXT .UTF16)) = .ok (.TEXT .UTF16)
      ∧ ContentType.from_string "text/html" = .error "invalid content-type" :=
  ⟨c4_content_type_strict_inverse.1 (.TEXT .UTF16),
   c4_content_type_strict_inverse.2.2.2.2 "text/html" (by decide) (by decide) (by decide)⟩

/-- C5 (code bug): the source documents `set_from`/`set_to` as validating
the 14-digit bound and padding the value, but their bodies are
`unreachable!()` — at the claim's own inputs (a 15-digit `from`, and
`from = 20200101000000` with `to = 20190101000000`) the calls abort
instead of returning the `invalid_range` error or a querier. -/
theorem c5_time_range_setters_abort :
    CDXQuerier.set_from 100000000000000 = .aborts
      ∧ CDXQuerier.set_from 20200101000000 = .aborts
      ∧ CDXQuerier.set_to 20190101000000 = .aborts :=
  ⟨rfl, rfl, rfl⟩

/-- C6 (code bug): the source documents `set_page_size` as setting the
maximum size per page, but its body is `unreachable!()` — at the claim's
own inputs (`page_size = 0`, which should be rejected, and a non-zero
`page_size`, which should be accepted) the call aborts. -/
theorem c6_page_size_setter_aborts :
    CDXQuerier.set_page_size 0 = .aborts
      ∧ CDXQuerier.set_page_size 1 = .aborts :=
  ⟨rfl, rfl⟩

/-- C7 (confirmed): whenever the response status is not exactly 200,
`Fetcher::exec` returns the `status code` error carrying that status and
no bytes; consequently, when every fetch yields status 404,
`CollectionsInfo::fetch` surfaces `status code: 404` and produces no
catalog. -/
theorem c7_non_200_status_is_error :
    (∀ (f : Fetcher) (t : Transport),
        (t f.request).status ≠ 200 →
        f.exec t = .error ("status code: " ++ toString (t f.request).status))
      ∧ (∀ t : Transport, (∀ r, (t r).status = 404) →
          CollectionsInfo.fetch t = .error "status code: 404") := by
  constructor
  · intro f t hst
    unfold Fetcher.exec
    rw [if_pos (contentType_header_ok f.content_type), if_pos hst]
  · intro t h404
    have hexec : (Fetcher.json_fetcher CollectionsInfo.url).exec t
        = .error "status code: 404" := by
      unfold Fetcher.exec
      rw [if_pos (contentType_header_ok _), h404]
      rw [if_pos (by decide)]
      rfl
    unfold CollectionsInfo.fetch
    rw [hexec]
    rfl

/-- C7 (witness): the claim at a transport that answers 404 with an
empty body to every request. -/
theorem c7_witness :
    Fetcher.exec (Fetcher.json_fetcher CollectionsInfo.url) transport404
        = .error ("status code: "
            ++ toString (transport404 (Fetcher.json_fetcher CollectionsInfo.url).request).status)
      ∧ CollectionsInfo.fetch transport404 = .error "status code: 404" :=
  ⟨c7_non_200_status_is_error.1 (Fetcher.json_fetcher CollectionsInfo.url)
      transport404 (by decide),
   c7_non_200_status_is_error.2 transport404 (fun _ => rfl)⟩

/-- C8 (counterexample): against a transport that answers status 200 with
body `"x"` to every request, the fetch succeeds (the `Fetcher` returns
the raw bytes `"x"`), yet `CDXItems::fetch` returns a decode error rather
than those bytes: the body is decoded into CDX records, not returned
raw. -/
theorem c8_counterexample :
    (Fetcher.json_fetcher (Url.WARC "p")).exec transport200x = .ok "x"
      ∧ CDXItems.fetch "p" transport200x = .error "decode error" :=
  ⟨rfl, rfl⟩

/-- C8 (amended): `CDXItems::fetch` removes a single leading `'/'` from
the path if one is present (otherwise leaves the path unchanged), issues
the fetch against the WARC archive host with JSON content negotiation,
and on success decodes the response body as a JSON array of CDX records
(returning `CDXItems`, not the raw bytes). -/
theorem c8_fetch_archive_segment :
    (∀ r : List Char, stripSlash (String.mk ('/' :: r)) = String.mk r)
      ∧ (∀ p : String, p.data.head? ≠ some '/' → stripSlash p = p)
      ∧ (∀ p : String, (Fetcher.json_fetcher (Url.WARC p)).request
          = ⟨"https://" ++ WARC_HOST ++ "/" ++ p, "application/json"⟩)
      ∧ (∀ (p : String) (t : Transport),
          CDXItems.fetch p t
            = ((Fetcher.json_fetcher (Url.WARC (stripSlash p))).exec t).bind
                CDXItems.from_json_bytes)
      ∧ (∀ (p : String) (t : Transport) (b : String),
          t (Fetcher.json_fetcher (Url.WARC (stripSlash p))).request = ⟨200, b⟩ →
          CDXItems.fetch p t = CDXItems.from_json_bytes b) := by
  refine ⟨?_, ?_, ?_, ?_, ?_⟩
  · intro r
    rfl
  · intro p hp
    unfold stripSlash
    rw [if_neg hp]
  · intro p
    rfl
  · intro p t
    rfl
  · intro p t b ht
    show ((Fetcher.json_fetcher (Url.WARC (stripSlash p))).exec t).bind
        CDXItems.from_json_bytes = _
    unfold Fetcher.exec
    rw [if_pos (contentType_header_ok _), ht]
    rw [if_neg (fun h => h rfl)]
    rfl

/-- C8 (witness): the amended claim at the path `"/seg"` (leading slash
removed), the path `"seg"` (unchanged), and a 200-status transport. -/
theorem c8_witness :
    stripSlash (String.mk ('/' :: "seg".data)) = String.mk "seg".data
      ∧ stripSlash "seg" = "seg"
      ∧ CDXItems.fetch "/seg" transport200x = CDXItems.from_json_bytes "x" :=
  ⟨c8_fetch_archive_segment.1 "seg".data,
   c8_fetch_archive_segment.2.1 "seg" (by decide),
   c8_fetch_archive_segment.2.2.2.2 "/seg" transport200x "x" rfl⟩

/-- C9 (counterexample): the JSON object derived for a collection
descriptor uses the field names `id, name, timegate, cdx_api`, not the
spec's `id, name, timegate_url, cdx_api_url`; an object carrying the
spec's field names fails to decode. -/
theorem c9_counterexample :
    (CollectionInfo.toJson ⟨"a", "b", "c", "d"⟩).fieldNames
        = ["id", "name", "timegate", "cdx_api"]
      ∧ (CollectionInfo.toJson ⟨"a", "b", "c", "d"⟩).fieldNames
        ≠ specCollectionDescriptorFields
      ∧ CollectionInfo.fromJson
          (Json.obj [("id", .str "a"), ("name", .str "b"),
                     ("timegate_url", .str "c"), ("cdx_api_url", .str "d")])
        = .error "missing field timegate" :=
  ⟨rfl, by decide, rfl⟩

/-- C9 (amended): every in-memory record type round-trips exactly through
its JSON representation, and the JSON field names used are
`{id, name, timegate, cdx_api}` for a collection descriptor (the source's
Rust field names, which the derived serializer uses verbatim) and exactly
the spec's twelve names for a CDX record. -/
theorem c9_json_roundtrip_and_field_names :
    (∀ c : CollectionInfo, CollectionInfo.fromJson (CollectionInfo.toJson c) = .ok c)
      ∧ (∀ x : CDXItem, CDXItem.fromJson (CDXItem.toJson x) = .ok x)
      ∧ (∀ cs : CollectionsInfo,
          CollectionsInfo.fromJson (CollectionsInfo.toJson cs) = .ok cs)
      ∧ (∀ xs : CDXItems, CDXItems.fromJson (CDXItems.toJson xs) = .ok xs)
      ∧ (∀ c : CollectionInfo,
          (CollectionInfo.toJson c).fieldNames = ["id", "name", "timegate", "cdx_api"])
      ∧ (∀ x : CDXItem, (CDXItem.toJson x).fieldNames = specCDXRecordFields) := by
  refine ⟨fun c => rfl, fun x => rfl, ?_, ?_, fun c => rfl, fun x => rfl⟩
  · intro cs
    show (decodeList CollectionInfo.fromJson
        (cs.items.map CollectionInfo.toJson)).map CollectionsInfo.mk = .ok cs
    rw [decodeList_map CollectionInfo.toJson CollectionInfo.fromJson
        (fun c => rfl) cs.items]
    rfl
  · intro xs
    show (decodeList CDXItem.fromJson
        (xs.items.map CDXItem.toJson)).map CDXItems.mk = .ok xs
    rw [decodeList_map CDXItem.toJson CDXItem.fromJson (fun x => rfl) xs.items]
    rfl

/-- C10 (confirmed): every public `CDXQuerier` operation — `set_path`,
`set_from`, `set_to`, `set_limit`, `set_sort`, `set_filter`, `set_field`,
`set_page`, `set_page_size`, and `exec` — aborts unconditionally
(`unreachable!()`) for every input instead of returning a querier, a
record page, or a typed error. -/
theorem c10_querier_operations_abort :
    (∀ p : String, CDXQuerier.set_path p = .aborts)
      ∧ (∀ n : Nat, CDXQuerier.set_from n = .aborts)
      ∧ (∀ n : Nat, CDXQuerier.set_to n = .aborts)
      ∧ (∀ n : Nat, CDXQuerier.set_limit n = .aborts)
      ∧ (∀ n : Int, CDXQuerier.set_sort n = .aborts)
      ∧ (∀ s : String, CDXQuerier.set_filter s = .aborts)
      ∧ (∀ s : String, CDXQuerier.set_field s = .aborts)
      ∧ (∀ n : Nat, CDXQuerier.set_page n = .aborts)
      ∧ (∀ n : Nat, CDXQuerier.set_page_size n = .aborts)
      ∧ (∀ q : CDXQuerier, q.exec = .aborts) :=
  ⟨fun _ => rfl, fun _ => rfl, fun _ => rfl, fun _ => rfl, fun _ => rfl,
   fun _ => rfl, fun _ => rfl, fun _ => rfl, fun _ => rfl, fun _ => rfl⟩

end Commoner

